import Mathlib

/-!
Shallow embedding of the noise-driven flow-field particle simulator of the
encre repository, as it appears in `lessons/07_flow_fields/flow_fields_py5.py`
and `lessons/17_capstone/capstone_py5.py`.

Numeric convention: Python floats are modelled as exact rationals (`ℚ`)
except where the source manipulates genuinely real quantities
(`py5.TWO_PI`, `py5.cos`, `py5.sin`), which are modelled over `ℝ`.
Python ints are `ℕ`/`ℤ`.
-/

namespace Encre

/-- Python `int()` applied to a rational: truncation toward zero. -/
def pyTrunc (q : ℚ) : ℤ := if 0 ≤ q then ⌊q⌋ else ⌈q⌉

/-- `py5.constrain(v, lo, hi)` on integers: `min(max(v, lo), hi)`. -/
def constrain (v lo hi : ℤ) : ℤ := min (max v lo) hi

/-- Python list subscription `l[i]`: nonnegative indices from the front,
negative indices from the back, `none` when the index is out of range. -/
def pyGet {α : Type} (l : List α) (i : ℤ) : Option α :=
  if 0 ≤ i then l[i.toNat]?
  else if (-i).toNat ≤ l.length then l[l.length - (-i).toNat]?
  else none

/-- Cell access `field[i][j]` for front indices of a nested list. -/
def cellAt {α : Type} (f : List (List α)) (i j : ℕ) : Option α :=
  (f[i]?).bind fun r => r[j]?

/-- `cols = int(py5.width / scale) + 1` from `setup` (both lessons). -/
def gridCols (w s : ℕ) : ℤ := pyTrunc ((w : ℚ) / (s : ℚ)) + 1

/-- `rows = int(py5.height / scale) + 1` from `setup` (both lessons). -/
def gridRows (h s : ℕ) : ℤ := pyTrunc ((h : ℚ) / (s : ℚ)) + 1

/-- The column count the spec's invariant asks for:
`ceil(canvas_width / cell_size)`. Spec-side formula, for comparison with
`gridCols`, which is read off the source. -/
def specCeilCols (w s : ℕ) : ℤ := ⌈(w : ℚ) / (s : ℚ)⌉

/-- The row count the spec's invariant asks for: `ceil(canvas_height / cell_size)`. -/
def specCeilRows (h s : ℕ) : ℤ := ⌈(h : ℚ) / (s : ℚ)⌉

/-- The field recomputation of lesson 07 (`update_field`): after the nested
loops, cell `(i, j)` holds `noise(i * 0.1, j * 0.1, z_offset) * TWO_PI * 2`.
The noise function is abstracted as `sample`. -/
noncomputable def updateField07 (sample : ℝ → ℝ → ℝ → ℝ) (cols rows : ℕ)
    (zOffset : ℝ) : List (List ℝ) :=
  (List.range cols).map fun (i : ℕ) => (List.range rows).map fun (j : ℕ) =>
    sample ((i : ℝ) * 0.1) ((j : ℝ) * 0.1) zOffset * (2 * Real.pi) * 2

/-- The field recomputation of the capstone (`update_field(artist)`): cell
`(i, j)` holds `noise(i * flow_scale * 10, j * flow_scale * 10, z_offset)
* TWO_PI * multiplier`. -/
noncomputable def updateFieldCap (sample : ℝ → ℝ → ℝ → ℝ) (cols rows : ℕ)
    (zOffset flowScale mult : ℝ) : List (List ℝ) :=
  (List.range cols).map fun (i : ℕ) => (List.range rows).map fun (j : ℕ) =>
    sample ((i : ℝ) * flowScale * 10) ((j : ℝ) * flowScale * 10) zOffset *
      (2 * Real.pi) * mult

/-- State of a capstone `ArtParticle` (the lesson-07 `FlowParticle` is the
same record without `lifespan`/`age`, and its `update` is the same code
without the age increment). `age` is the Python int counter; `lifespan` is
the float drawn from `py5.random(100, 300)` at reset. -/
structure ArtParticle where
  x : ℚ
  y : ℚ
  prevX : ℚ
  prevY : ℚ
  vx : ℚ
  vy : ℚ
  maxSpeed : ℚ
  lifespan : ℚ
  age : ℕ

/-- The sketch-level globals a particle reads: canvas size, `scale`,
`cols`/`rows`, the flow field, and the trigonometric primitives.
`fieldFn` is the total view of `field[col][row]` after index clamping
(the list-based lookup `angleAt` below is proved in range under the setup
invariants); `cosF`/`sinF` stand for `py5.cos`/`py5.sin`, whose exact real
versions appear in `RParticle.follow`. -/
structure Env where
  width : ℚ
  height : ℚ
  scale : ℚ
  cols : ℕ
  rows : ℕ
  fieldFn : ℤ → ℤ → ℚ
  cosF : ℚ → ℚ
  sinF : ℚ → ℚ

/-- `ArtParticle.follow(field)`: find the cell via `int(x / scale)`, clamp
with `py5.constrain` to `[0, cols-1]` x `[0, rows-1]`, read the angle and
set velocity to `(cos(angle), sin(angle)) * max_speed`. -/
def ArtParticle.follow (e : Env) (p : ArtParticle) : ArtParticle :=
  let colIdx := constrain (pyTrunc (p.x / e.scale)) 0 ((e.cols : ℤ) - 1)
  let rowIdx := constrain (pyTrunc (p.y / e.scale)) 0 ((e.rows : ℤ) - 1)
  let angle := e.fieldFn colIdx rowIdx
  { p with vx := e.cosF angle * p.maxSpeed, vy := e.sinF angle * p.maxSpeed }

/-- `ArtParticle.update()`: store previous position, advance by velocity,
age by one, then apply the four sequential wrap-around corrections, each of
which also resets the previous coordinate on that axis. -/
def ArtParticle.update (e : Env) (p : ArtParticle) : ArtParticle :=
  let x1 := p.x + p.vx
  let y1 := p.y + p.vy
  let x2 := if x1 < 0 then e.width else x1
  let px2 := if x1 < 0 then e.width else p.x
  let x3 := if x2 > e.width then 0 else x2
  let px3 := if x2 > e.width then 0 else px2
  let y2 := if y1 < 0 then e.height else y1
  let qy2 := if y1 < 0 then e.height else p.y
  let y3 := if y2 > e.height then 0 else y2
  let qy3 := if y2 > e.height then 0 else qy2
  { p with x := x3, y := y3, prevX := px3, prevY := qy3, age := p.age + 1 }

/-- `ArtParticle.is_dead()`: `age >= lifespan`. -/
def ArtParticle.isDead (p : ArtParticle) : Bool :=
  decide (p.lifespan ≤ (p.age : ℚ))

/-- The alpha computed in `ArtParticle.display`:
`life_ratio = 1 - age / lifespan; alpha = life_ratio * opacity`. -/
def ArtParticle.renderAlpha (p : ArtParticle) (opacity : ℚ) : ℚ :=
  (1 - (p.age : ℚ) / p.lifespan) * opacity

/-- The alpha a pool slot is displayed with during one frame of the
capstone `draw` loop: the particle is advanced by `follow` and `update`
before `display` runs. -/
def frameAlpha (e : Env) (opacity : ℚ) (p : ArtParticle) : ℚ :=
  ((p.follow e).update e).renderAlpha opacity

/-- One frame of the capstone `draw` loop for a single pool slot:
`follow`, `update`, then in-place replacement by a fresh particle when
`is_dead` (the randomly constructed replacement is the parameter `fresh`). -/
def slotStep (e : Env) (fresh : ArtParticle) (p : ArtParticle) : ArtParticle :=
  let p1 := (p.follow e).update e
  if p1.isDead then fresh else p1

/-- The particle pass of the capstone `draw`: every slot is advanced and
dead slots are replaced in place (`particles[i] = ArtParticle(artist)`).
The iteration order of the source loop (reverse index order) is
irrelevant because each slot is touched exactly once and slots do not read
each other. `fresh i` supplies the replacement for slot `i`. -/
def tickPool (e : Env) (fresh : ℕ → ArtParticle) (pool : List ArtParticle) :
    List ArtParticle :=
  pool.mapIdx fun i p => slotStep e (fresh i) p

/-- `particles = [ArtParticle(artist) for _ in range(max_particles)]`. -/
def initPool (mk : ℕ → ArtParticle) (n : ℕ) : List ArtParticle :=
  (List.range n).map mk

/-- `k` consecutive frames of the particle pass; `freshT t i` supplies the
replacement for slot `i` during frame `t`. -/
def runPool (e : Env) (freshT : ℕ → ℕ → ArtParticle) :
    ℕ → List ArtParticle → List ArtParticle
  | 0, pool => pool
  | k + 1, pool => runPool e freshT k (tickPool e (freshT k) pool)

/-- Membership of a particle position in the closed canvas box. -/
abbrev inBox (e : Env) (p : ArtParticle) : Prop :=
  0 ≤ p.x ∧ p.x ≤ e.width ∧ 0 ≤ p.y ∧ p.y ≤ e.height

/-- The cell lookup performed by `follow` against the actual nested-list
field: indices by truncating division, clamped with `py5.constrain`, then
`field[col][row]` with Python subscription semantics. -/
def angleAt {α : Type} (scale : ℚ) (cols rows : ℕ) (field : List (List α))
    (x y : ℚ) : Option α :=
  (pyGet field (constrain (pyTrunc (x / scale)) 0 ((cols : ℤ) - 1))).bind
    fun r => pyGet r (constrain (pyTrunc (y / scale)) 0 ((rows : ℤ) - 1))

/-- Python `int()` on a real: truncation toward zero. -/
noncomputable def pyTruncR (r : ℝ) : ℤ := if 0 ≤ r then ⌊r⌋ else ⌈r⌉

/-- Real-valued particle state, for the exact trigonometric facts. -/
structure RParticle where
  x : ℝ
  y : ℝ
  prevX : ℝ
  prevY : ℝ
  vx : ℝ
  vy : ℝ
  maxSpeed : ℝ

/-- `follow` with the exact `py5.cos`/`py5.sin`: velocity becomes
`(cos(angle) * max_speed, sin(angle) * max_speed)`. -/
noncomputable def RParticle.follow (scale : ℝ) (cols rows : ℕ)
    (fieldFn : ℤ → ℤ → ℝ) (p : RParticle) : RParticle :=
  let colIdx := constrain (pyTruncR (p.x / scale)) 0 ((cols : ℤ) - 1)
  let rowIdx := constrain (pyTruncR (p.y / scale)) 0 ((rows : ℤ) - 1)
  let angle := fieldFn colIdx rowIdx
  { p with vx := Real.cos angle * p.maxSpeed,
           vy := Real.sin angle * p.maxSpeed }

/-- Modelled from the spec: the configuration bundle of section 6 (palette,
speed range, stroke-width range, opacity, noise scale, angle multiplier,
pool size, lifespan range). Colors are abstracted to rationals. -/
structure Profile where
  palette : List ℚ
  speedRange : ℚ × ℚ
  strokeWeightRange : ℚ × ℚ
  opacity : ℚ
  noiseScale : ℚ
  angleMultiplier : ℚ
  poolSize : ℕ
  lifespanRange : ℚ × ℚ

/-- Modelled from the spec: a malformed profile per section 7 — empty
palette or an inverted range (a missing key is unrepresentable in this
record model). -/
def Profile.malformed (pr : Profile) : Bool :=
  pr.palette.isEmpty || decide (pr.speedRange.2 < pr.speedRange.1) ||
    decide (pr.strokeWeightRange.2 < pr.strokeWeightRange.1) ||
    decide (pr.lifespanRange.2 < pr.lifespanRange.1)

/-- Modelled from the spec: construction-time validation of sections 4.4
and 7, which has no counterpart in the source files (the sketches hard-code
positive canvas sizes and perform no validation). Zero or negative canvas
dimensions, a zero or negative cell size, and a malformed profile are each
rejected with a configuration error; otherwise construction succeeds. -/
def mkSystem (w h cellSize : ℤ) (pr : Profile) :
    Except String (ℤ × ℤ × ℤ × Profile) :=
  if w ≤ 0 ∨ h ≤ 0 then
    Except.error ("configuration error: nonpositive canvas dimensions")
  else if cellSize ≤ 0 then
    Except.error ("configuration error: nonpositive cell size")
  else if Profile.malformed pr then
    Except.error ("configuration error: malformed profile")
  else Except.ok (w, h, cellSize, pr)

/-- A concrete sketch environment on the lesson-07 canvas (800 x 600,
`scale = 20`, hence 41 x 31 cells), with a zero field and zero
trigonometric stand-ins. -/
def envW : Env :=
  { width := 800, height := 600, scale := 20, cols := 41, rows := 31,
    fieldFn := fun _ _ => 0, cosF := fun _ => 0, sinF := fun _ => 0 }

/-- A concrete particle one pixel left of the right canvas edge, moving
right at 10 units per tick. -/
def pW : ArtParticle :=
  { x := 799, y := 300, prevX := 799, prevY := 300, vx := 10, vy := 0,
    maxSpeed := 3, lifespan := 200, age := 0 }

/-- A concrete particle at the left edge moving further left. -/
def pLeft : ArtParticle :=
  { x := 0, y := 0, prevX := 0, prevY := 0, vx := -1, vy := 0,
    maxSpeed := 3, lifespan := 200, age := 0 }

/-- A concrete motionless particle with the non-integral lifespan 100.5,
inside the `py5.random(100, 300)` range of the capstone `reset`. -/
def pFade : ArtParticle :=
  { x := 0, y := 0, prevX := 0, prevY := 0, vx := 0, vy := 0,
    maxSpeed := 2, lifespan := 201 / 2, age := 0 }

/-- A concrete well-formed profile. -/
def prW : Profile :=
  { palette := [1, 2], speedRange := (1, 3), strokeWeightRange := (1, 2),
    opacity := 80, noiseScale := 1 / 10, angleMultiplier := 2,
    poolSize := 0, lifespanRange := (100, 300) }

/-- The state of `pFade` after `k` frames of the slot loop (while alive):
only the age counter changes, the particle is motionless. -/
def pFadeAt (k : ℕ) : ArtParticle :=
  { x := 0, y := 0, prevX := 0, prevY := 0, vx := 0, vy := 0,
    maxSpeed := 2, lifespan := 201 / 2, age := k }

/-- A concrete particle of age 1 with lifespan 2. -/
def pOne : ArtParticle :=
  { x := 0, y := 0, prevX := 0, prevY := 0, vx := 0, vy := 0,
    maxSpeed := 2, lifespan := 2, age := 1 }

/-! ## Theorems -/

theorem pyTrunc_natCast_div (w s : ℕ) (hs : 0 < s) :
    pyTrunc ((w : ℚ) / (s : ℚ)) = (w / s : ℕ) := by
  have hs0 : (0 : ℚ) < (s : ℚ) := by exact_mod_cast hs
  have hnn : (0 : ℚ) ≤ (w : ℚ) / (s : ℚ) :=
    div_nonneg (by positivity) (le_of_lt hs0)
  rw [pyTrunc, if_pos hnn]
  rw [Int.floor_eq_iff]
  constructor
  · rw [le_div_iff₀ hs0]
    exact_mod_cast Nat.div_mul_le_self w s
  · rw [div_lt_iff₀ hs0]
    exact_mod_cast (Nat.div_lt_iff_lt_mul hs).mp (Nat.lt_succ_self (w / s))

theorem specCeil_of_not_dvd (w s : ℕ) (hs : 0 < s) (h : ¬ s ∣ w) :
    specCeilCols w s = ((w / s : ℕ) : ℤ) + 1 := by
  have hs0 : (0 : ℚ) < (s : ℚ) := by exact_mod_cast hs
  rw [specCeilCols, Int.ceil_eq_iff]
  constructor
  · push_cast
    rw [add_sub_cancel_right, lt_div_iff₀ hs0]
    have hle : w / s * s ≤ w := Nat.div_mul_le_self w s
    have hne : w / s * s ≠ w := by
      intro he
      exact h (he ▸ dvd_mul_left s (w / s))
    exact_mod_cast lt_of_le_of_ne hle hne
  · push_cast
    rw [div_le_iff₀ hs0]
    exact_mod_cast le_of_lt ((Nat.div_lt_iff_lt_mul hs).mp (Nat.lt_succ_self (w / s)))

theorem specCeil_of_dvd (w s : ℕ) (hs : 0 < s) (h : s ∣ w) :
    specCeilCols w s = ((w / s : ℕ) : ℤ) := by
  obtain ⟨k, rfl⟩ := h
  have hs0 : (0 : ℚ) < (s : ℚ) := by exact_mod_cast hs
  have : ((s * k : ℕ) : ℚ) / (s : ℚ) = (k : ℚ) := by
    push_cast
    field_simp
  rw [specCeilCols, this, Int.ceil_natCast, Nat.mul_div_cancel_left k hs]

/-- C4 (amended): at construction the grid satisfies
`columns = floor(canvas_width / cell_size) + 1` and
`rows = floor(canvas_height / cell_size) + 1`; this equals
`ceil(dimension / cell_size)` exactly when `cell_size` does not divide the
dimension, and exceeds it by one when it does. -/
theorem C4_grid_dimensions (w h s : ℕ) (hs : 0 < s) :
    gridCols w s = ((w / s : ℕ) : ℤ) + 1 ∧
    gridRows h s = ((h / s : ℕ) : ℤ) + 1 ∧
    (¬ s ∣ w → gridCols w s = specCeilCols w s) ∧
    (s ∣ w → gridCols w s = specCeilCols w s + 1) ∧
    (¬ s ∣ h → gridRows h s = specCeilRows h s) ∧
    (s ∣ h → gridRows h s = specCeilRows h s + 1) := by
  have hc : ∀ n : ℕ, gridCols n s = ((n / s : ℕ) : ℤ) + 1 := fun n => by
    rw [gridCols, pyTrunc_natCast_div n s hs]
  refine ⟨hc w, hc h, ?_, ?_, ?_, ?_⟩
  · intro hdvd
    rw [hc w, specCeil_of_not_dvd w s hs hdvd]
  · intro hdvd
    rw [hc w, specCeil_of_dvd w s hs hdvd]
  · intro hdvd
    show gridCols h s = specCeilCols h s
    rw [hc h, specCeil_of_not_dvd h s hs hdvd]
  · intro hdvd
    show gridCols h s = specCeilCols h s + 1
    rw [hc h, specCeil_of_dvd h s hs hdvd]

/-- C4 witness: the amended statement at the capstone canvas (1200 x 800,
cell size 15), with the divisibility implications discharged
(15 divides 1200 but not 800). -/
theorem C4_grid_dimensions_witness :
    0 < 15 ∧
    gridCols 1200 15 = ((1200 / 15 : ℕ) : ℤ) + 1 ∧
    gridRows 800 15 = ((800 / 15 : ℕ) : ℤ) + 1 ∧
    gridCols 1200 15 = specCeilCols 1200 15 + 1 ∧
    gridRows 800 15 = specCeilRows 800 15 := by
  have T := C4_grid_dimensions 1200 800 15 (by decide)
  exact ⟨by decide, T.1, T.2.1, T.2.2.2.1 (by decide), T.2.2.2.2.1 (by decide)⟩

/-- C4 counterexample: on the lesson-07 canvas (800 wide, cell size 20,
where the cell size divides the width) the constructed column count is 41
while `ceil(800 / 20) = 40`, so the claimed invariant
`columns = ceil(canvas_width / cell_size)` fails. -/
theorem C4_ceil_counterexample :
    gridCols 800 20 = 41 ∧ specCeilCols 800 20 = 40 ∧
    gridCols 800 20 ≠ specCeilCols 800 20 := by
  have h1 : gridCols 800 20 = ((800 / 20 : ℕ) : ℤ) + 1 := by
    rw [gridCols, pyTrunc_natCast_div 800 20 (by norm_num)]
  have h2 : specCeilCols 800 20 = ((800 / 20 : ℕ) : ℤ) :=
    specCeil_of_dvd 800 20 (by norm_num) ⟨40, by norm_num⟩
  refine ⟨by rw [h1]; norm_num, by rw [h2]; norm_num, by rw [h1, h2]; norm_num⟩

/-- C1: for every cell `(i, j)` of the flow grid, the field update stores
`sample(i * noise_scale, j * noise_scale, time_offset) * 2π *
angle_multiplier` — in lesson 07 with `noise_scale = 0.1` and
`angle_multiplier = 2`, in the capstone with `noise_scale = flow_scale * 10`
and `angle_multiplier = multiplier`. -/
theorem C1_update_field_cells (sample : ℝ → ℝ → ℝ → ℝ) (cols rows : ℕ)
    (z fs m : ℝ) (i j : ℕ) (hi : i < cols) (hj : j < rows) :
    cellAt (updateField07 sample cols rows z) i j
      = some (sample ((i : ℝ) * 0.1) ((j : ℝ) * 0.1) z * (2 * Real.pi) * 2) ∧
    cellAt (updateFieldCap sample cols rows z fs m) i j
      = some (sample ((i : ℝ) * (fs * 10)) ((j : ℝ) * (fs * 10)) z *
          (2 * Real.pi) * m) := by
  have h1 : (List.range cols)[i]? = some i := List.getElem?_range hi
  have h2 : (List.range rows)[j]? = some j := List.getElem?_range hj
  constructor
  · simp only [cellAt, updateField07, List.getElem?_map, h1, h2,
      Option.map_some', Option.some_bind]
  · simp only [cellAt, updateFieldCap, List.getElem?_map, h1, h2,
      Option.map_some', Option.some_bind, mul_assoc]

/-- C1 witness: both field updates evaluated at cell `(1, 2)` of a 2 x 3
grid with a concrete sample function. -/
theorem C1_update_field_cells_witness :
    (1 < 2 ∧ 2 < 3) ∧
    (cellAt (updateField07 (fun a b c => a + b + c) 2 3 5) 1 2
        = some ((fun a b c : ℝ => a + b + c) (((1 : ℕ) : ℝ) * 0.1)
            (((2 : ℕ) : ℝ) * 0.1) 5 * (2 * Real.pi) * 2) ∧
     cellAt (updateFieldCap (fun a b c => a + b + c) 2 3 5 7 9) 1 2
        = some ((fun a b c : ℝ => a + b + c) (((1 : ℕ) : ℝ) * (7 * 10))
            (((2 : ℕ) : ℝ) * (7 * 10)) 5 * (2 * Real.pi) * 9)) :=
  ⟨⟨by norm_num, by norm_num⟩,
   C1_update_field_cells (fun a b c => a + b + c) 2 3 5 7 9 1 2
     (by norm_num) (by norm_num)⟩

/-- C2: a wrap on an axis resets the previous coordinate on that axis to
the wrapped coordinate, and the spec's concrete scenario: a particle at
`x = canvas_width - 1` with `vx = +10` ends one tick with `x` wrapped to 0
and `previous_position.x = position.x = 0`. -/
theorem C2_wrap_resets_previous (e : Env) (p : ArtParticle)
    (hw : 0 ≤ e.width) :
    ((p.x + p.vx < 0 ∨ e.width < p.x + p.vx) →
      (p.update e).prevX = (p.update e).x) ∧
    ((p.y + p.vy < 0 ∨ e.height < p.y + p.vy) →
      (p.update e).prevY = (p.update e).y) ∧
    (p.x = e.width - 1 → p.vx = 10 →
      (p.update e).x = 0 ∧ (p.update e).prevX = 0) := by
  refine ⟨?_, ?_, ?_⟩
  · intro hcond
    simp only [ArtParticle.update]
    split_ifs <;> first
      | rfl
      | (rcases hcond with hc | hc <;> linarith)
  · intro hcond
    simp only [ArtParticle.update]
    split_ifs <;> first
      | rfl
      | (rcases hcond with hc | hc <;> linarith)
  · intro hx hv
    simp only [ArtParticle.update, hx, hv]
    constructor <;> (split_ifs <;> first | rfl | linarith)

/-- C2 witness: the concrete scenario on the 800-wide canvas, with the
wrap condition and the conclusions fully discharged. -/
theorem C2_wrap_resets_previous_witness :
    (pW.x + pW.vx < 0 ∨ envW.width < pW.x + pW.vx) ∧
    (pW.update envW).prevX = (pW.update envW).x ∧
    ((pW.update envW).x = 0 ∧ (pW.update envW).prevX = 0) := by
  have T := C2_wrap_resets_previous envW pW (by norm_num [envW])
  have hgt : envW.width < pW.x + pW.vx := by norm_num [envW, pW]
  exact ⟨Or.inr hgt, T.1 (Or.inr hgt),
    T.2.2 (by norm_num [envW, pW]) (by norm_num [pW])⟩

theorem update_inBox (e : Env) (p : ArtParticle)
    (hw : 0 ≤ e.width) (hh : 0 ≤ e.height) : inBox e (p.update e) := by
  simp only [ArtParticle.update, inBox]
  split_ifs <;> refine ⟨?_, ?_, ?_, ?_⟩ <;> linarith

/-- C5 (amended): after the wrap-around correction of a tick a particle's
position lies in the closed box `[0, canvas_width] x [0, canvas_height]`
(the lower-edge wrap sets the coordinate to exactly the canvas extent, so
the half-open box of the claim is not an invariant), and after any number
of frames — each slot being advanced and possibly replaced in place by a
fresh particle spawned inside the canvas — the position remains in the
closed box. -/
theorem C5_positions_in_closed_box (e : Env) (p fresh : ArtParticle) (n : ℕ)
    (hw : 0 ≤ e.width) (hh : 0 ≤ e.height) (hf : inBox e fresh)
    (hn : 1 ≤ n) :
    inBox e (p.update e) ∧ inBox e ((slotStep e fresh)^[n] p) := by
  have hu : ∀ q : ArtParticle, inBox e (q.update e) := fun q =>
    update_inBox e q hw hh
  have hs : ∀ q : ArtParticle, inBox e (slotStep e fresh q) := by
    intro q
    simp only [slotStep]
    split
    · exact hf
    · exact hu (q.follow e)
  refine ⟨hu p, ?_⟩
  obtain ⟨m, rfl⟩ : ∃ m, n = m + 1 := ⟨n - 1, by omega⟩
  rw [Function.iterate_succ_apply']
  exact hs _

/-- C5 witness: the closed-box bound for the left-edge particle and for
one frame of the slot loop. -/
theorem C5_positions_in_closed_box_witness :
    ((0 : ℚ) ≤ envW.width ∧ (0 : ℚ) ≤ envW.height ∧ inBox envW pW ∧ 1 ≤ 1) ∧
    (inBox envW (pLeft.update envW) ∧
     inBox envW ((slotStep envW pW)^[1] pLeft)) :=
  ⟨⟨by norm_num [envW], by norm_num [envW], by norm_num [inBox, envW, pW],
    by norm_num⟩,
   C5_positions_in_closed_box envW pLeft pW 1 (by norm_num [envW])
     (by norm_num [envW]) (by norm_num [inBox, envW, pW]) (by norm_num)⟩

/-- C5 counterexample: starting from a valid position (the origin) with
`vx = -1`, one tick puts the particle at `x = canvas_width` exactly — on
the boundary excluded by the claimed half-open box `[0, canvas_width)`. -/
theorem C5_halfopen_counterexample :
    (pLeft.update envW).x = 800 ∧ ¬ (pLeft.update envW).x < 800 := by
  constructor <;> norm_num [ArtParticle.update, pLeft, envW]

theorem tickPool_length (e : Env) (fresh : ℕ → ArtParticle)
    (pool : List ArtParticle) :
    (tickPool e fresh pool).length = pool.length := by
  simp [tickPool]

theorem runPool_length (e : Env) (freshT : ℕ → ℕ → ArtParticle) (k : ℕ)
    (pool : List ArtParticle) :
    (runPool e freshT k pool).length = pool.length := by
  induction k generalizing pool with
  | zero => rfl
  | succ k ih =>
    rw [runPool, ih, tickPool_length]

/-- C6: the particle pass of every frame preserves the pool length — dead
particles are replaced in place, never removed — so a pool constructed
with `max_particles` entries still has `max_particles` entries after any
number of frames. -/
theorem C6_pool_size_invariant (e : Env) (freshT : ℕ → ℕ → ArtParticle)
    (mk : ℕ → ArtParticle) (n k : ℕ) (pool : List ArtParticle) :
    (tickPool e (freshT 0) pool).length = pool.length ∧
    (initPool mk n).length = n ∧
    (runPool e freshT k (initPool mk n)).length = n := by
  have hi : (initPool mk n).length = n := by
    simp [initPool]
  exact ⟨tickPool_length e (freshT 0) pool, hi, by rw [runPool_length, hi]⟩

/-- C7 (amended): the rendered alpha is the linear map
`(1 - age / lifespan) * opacity`; a rendered particle has `1 ≤ age` and
`age - 1 < lifespan` (it survived the previous frame's death check), hence
its alpha is strictly below `opacity` and strictly above
`-opacity / lifespan`; it is nonnegative whenever `age ≤ lifespan`, and
can dip below zero only on the particle's final render, when a
non-integral lifespan has just been overshot. -/
theorem C7_render_alpha_bounds (p : ArtParticle) (op : ℚ)
    (hL : 0 < p.lifespan) (hop : 0 < op) (h1 : 1 ≤ p.age)
    (h2 : (p.age : ℚ) - 1 < p.lifespan) :
    p.renderAlpha op = (1 - (p.age : ℚ) / p.lifespan) * op ∧
    -(op / p.lifespan) < p.renderAlpha op ∧
    p.renderAlpha op < op ∧
    ((p.age : ℚ) ≤ p.lifespan → 0 ≤ p.renderAlpha op) := by
  have e1 : p.renderAlpha op = (1 - (p.age : ℚ) / p.lifespan) * op := rfl
  have ha1 : (1 : ℚ) ≤ (p.age : ℚ) := by exact_mod_cast h1
  refine ⟨e1, ?_, ?_, ?_⟩
  · have h4 : ((p.age : ℚ) - 1) / p.lifespan < 1 :=
      (div_lt_one hL).mpr h2
    rw [sub_div] at h4
    calc -(op / p.lifespan) = (-(1 / p.lifespan)) * op := by ring
      _ < (1 - (p.age : ℚ) / p.lifespan) * op := by
          apply mul_lt_mul_of_pos_right _ hop
          linarith
      _ = p.renderAlpha op := e1.symm
  · have h3 : (0 : ℚ) < (p.age : ℚ) / p.lifespan :=
      div_pos (by linarith) hL
    calc p.renderAlpha op = (1 - (p.age : ℚ) / p.lifespan) * op := e1
      _ < 1 * op := by
          apply mul_lt_mul_of_pos_right _ hop
          linarith
      _ = op := one_mul op
  · intro hle
    have h5 : (p.age : ℚ) / p.lifespan ≤ 1 := (div_le_one hL).mpr hle
    rw [e1]
    exact mul_nonneg (by linarith) (le_of_lt hop)

/-- C7 witness: the amended bounds for a particle of age 1 with lifespan 2
and opacity 80. -/
theorem C7_render_alpha_bounds_witness :
    ((0 : ℚ) < pOne.lifespan ∧ (0 : ℚ) < 80 ∧ 1 ≤ pOne.age ∧
      (pOne.age : ℚ) - 1 < pOne.lifespan) ∧
    (pOne.renderAlpha 80 = (1 - (pOne.age : ℚ) / pOne.lifespan) * 80 ∧
     -(80 / pOne.lifespan) < pOne.renderAlpha 80 ∧
     pOne.renderAlpha 80 < 80 ∧
     ((pOne.age : ℚ) ≤ pOne.lifespan → 0 ≤ pOne.renderAlpha 80)) :=
  ⟨⟨by norm_num [pOne], by norm_num, by norm_num [pOne], by norm_num [pOne]⟩,
   C7_render_alpha_bounds pOne 80 (by norm_num [pOne]) (by norm_num)
     (by norm_num [pOne]) (by norm_num [pOne])⟩

theorem fade_step (n : ℕ) (hn : (n : ℚ) + 1 < 201 / 2) :
    slotStep envW pFade (pFadeAt n) = pFadeAt (n + 1) := by
  have hdead : (((pFadeAt n).follow envW).update envW).isDead = false := by
    simp only [ArtParticle.isDead, ArtParticle.update, ArtParticle.follow,
      pFadeAt, envW]
    norm_num
    linarith
  simp only [slotStep, hdead]
  simp only [ArtParticle.update, ArtParticle.follow, pFadeAt, envW]
  norm_num

theorem fade_run (k : ℕ) (hk : k ≤ 100) :
    (slotStep envW pFade)^[k] pFade = pFadeAt k := by
  induction k with
  | zero => rfl
  | succ n ih =>
    have hn : n ≤ 100 := Nat.le_of_succ_le hk
    rw [Function.iterate_succ_apply', ih hn]
    apply fade_step
    have : (n : ℚ) ≤ 99 := by
      have hn99 : n ≤ 99 := by omega
      exact_mod_cast hn99
    linarith

/-- C7 counterexample: with the non-integral lifespan 100.5, the particle
survives the death check of frame 100 (age 100 < 100.5) and is rendered
once more in frame 101 with age 101, where the display alpha
`(1 - 101/100.5) * 80` is negative — outside the claimed range
`[0, opacity]`. -/
theorem C7_negative_alpha_counterexample :
    ((slotStep envW pFade)^[100] pFade).age = 100 ∧
    frameAlpha envW 80 ((slotStep envW pFade)^[100] pFade) < 0 := by
  rw [fade_run 100 (by norm_num)]
  constructor
  · rfl
  · simp only [frameAlpha, ArtParticle.renderAlpha, ArtParticle.update,
      ArtParticle.follow, pFadeAt, envW]
    norm_num

theorem constrain_mem (v hi : ℤ) (hhi : 0 ≤ hi) :
    0 ≤ constrain v 0 hi ∧ constrain v 0 hi ≤ hi :=
  ⟨le_min (le_max_right v 0) hhi, min_le_right _ _⟩

theorem constrain_eq_self (v hi : ℤ) (h0 : 0 ≤ v) (hhi : v ≤ hi) :
    constrain v 0 hi = v := by
  rw [constrain, max_eq_left h0, min_eq_left hhi]

theorem pyGet_of_nonneg {α : Type} (l : List α) (i : ℤ) (h0 : 0 ≤ i) :
    pyGet l i = l[i.toNat]? := by
  rw [pyGet, if_pos h0]

/-- C3: for every canvas coordinate, including the corners and points on
or beyond the canvas edge, the cell lookup truncates the division by the
cell size, clamps the indices into `[0, cols-1] x [0, rows-1]`, and
returns the stored angle of that cell — no out-of-range access happens
when the field has the constructed `cols x rows` shape. -/
theorem C3_cell_lookup_safe {α : Type} (scale : ℚ) (cols rows : ℕ)
    (field : List (List α)) (x y : ℚ)
    (hc : 1 ≤ cols) (hr : 1 ≤ rows) (hlen : field.length = cols)
    (hrows : ∀ r ∈ field, r.length = rows) :
    0 ≤ constrain (pyTrunc (x / scale)) 0 ((cols : ℤ) - 1) ∧
    constrain (pyTrunc (x / scale)) 0 ((cols : ℤ) - 1) ≤ (cols : ℤ) - 1 ∧
    0 ≤ constrain (pyTrunc (y / scale)) 0 ((rows : ℤ) - 1) ∧
    constrain (pyTrunc (y / scale)) 0 ((rows : ℤ) - 1) ≤ (rows : ℤ) - 1 ∧
    ∃ a, angleAt scale cols rows field x y = some a ∧
      cellAt field (constrain (pyTrunc (x / scale)) 0 ((cols : ℤ) - 1)).toNat
        (constrain (pyTrunc (y / scale)) 0 ((rows : ℤ) - 1)).toNat = some a := by
  obtain ⟨h0c, h1c⟩ :=
    constrain_mem (pyTrunc (x / scale)) ((cols : ℤ) - 1) (by omega)
  obtain ⟨h0r, h1r⟩ :=
    constrain_mem (pyTrunc (y / scale)) ((rows : ℤ) - 1) (by omega)
  refine ⟨h0c, h1c, h0r, h1r, ?_⟩
  have hcn : (constrain (pyTrunc (x / scale)) 0 ((cols : ℤ) - 1)).toNat <
      field.length := by
    rw [hlen]; omega
  have hrowlen :
      field[(constrain (pyTrunc (x / scale)) 0 ((cols : ℤ) - 1)).toNat].length
        = rows := hrows _ (List.getElem_mem hcn)
  have hrn : (constrain (pyTrunc (y / scale)) 0 ((rows : ℤ) - 1)).toNat <
      field[(constrain (pyTrunc (x / scale)) 0 ((cols : ℤ) - 1)).toNat].length := by
    rw [hrowlen]; omega
  refine ⟨field[(constrain (pyTrunc (x / scale)) 0 ((cols : ℤ) - 1)).toNat][(constrain (pyTrunc (y / scale)) 0 ((rows : ℤ) - 1)).toNat], ?_, ?_⟩
  · rw [angleAt, pyGet_of_nonneg _ _ h0c, List.getElem?_eq_getElem hcn,
      Option.some_bind, pyGet_of_nonneg _ _ h0r, List.getElem?_eq_getElem hrn]
  · rw [cellAt, List.getElem?_eq_getElem hcn, Option.some_bind,
      List.getElem?_eq_getElem hrn]

/-- C3 witness: the lookup on a concrete 2 x 2 field at a coordinate left
of and below the canvas. -/
theorem C3_cell_lookup_safe_witness :
    (1 ≤ 2 ∧ 1 ≤ 2 ∧ ([[1, 2], [3, 4]] : List (List ℚ)).length = 2 ∧
      (∀ r ∈ ([[1, 2], [3, 4]] : List (List ℚ)), r.length = 2)) ∧
    (0 ≤ constrain (pyTrunc ((-5 : ℚ) / 20)) 0 (((2 : ℕ) : ℤ) - 1) ∧
     constrain (pyTrunc ((-5 : ℚ) / 20)) 0 (((2 : ℕ) : ℤ) - 1) ≤ ((2 : ℕ) : ℤ) - 1 ∧
     0 ≤ constrain (pyTrunc ((1000 : ℚ) / 20)) 0 (((2 : ℕ) : ℤ) - 1) ∧
     constrain (pyTrunc ((1000 : ℚ) / 20)) 0 (((2 : ℕ) : ℤ) - 1) ≤ ((2 : ℕ) : ℤ) - 1 ∧
     ∃ a, angleAt 20 2 2 ([[1, 2], [3, 4]] : List (List ℚ)) (-5) 1000 = some a ∧
       cellAt ([[1, 2], [3, 4]] : List (List ℚ))
         (constrain (pyTrunc ((-5 : ℚ) / 20)) 0 (((2 : ℕ) : ℤ) - 1)).toNat
         (constrain (pyTrunc ((1000 : ℚ) / 20)) 0 (((2 : ℕ) : ℤ) - 1)).toNat = some a) :=
  ⟨⟨by norm_num, by norm_num, by norm_num, by norm_num⟩,
   C3_cell_lookup_safe 20 2 2 [[1, 2], [3, 4]] (-5) 1000 (by norm_num)
     (by norm_num) (by norm_num) (by norm_num)⟩

theorem trunc_in_grid (w s : ℕ) (x : ℚ) (hs : 0 < s) (hx0 : 0 ≤ x)
    (hxw : x ≤ (w : ℚ)) :
    0 ≤ pyTrunc (x / (s : ℚ)) ∧ pyTrunc (x / (s : ℚ)) ≤ gridCols w s - 1 := by
  have hs0 : (0 : ℚ) < (s : ℚ) := by exact_mod_cast hs
  have hnn : (0 : ℚ) ≤ x / (s : ℚ) := div_nonneg hx0 hs0.le
  have ht : pyTrunc (x / (s : ℚ)) = ⌊x / (s : ℚ)⌋ := by
    rw [pyTrunc, if_pos hnn]
  have hfl : ⌊(w : ℚ) / (s : ℚ)⌋ = ((w / s : ℕ) : ℤ) := by
    have h' := pyTrunc_natCast_div w s hs
    rwa [pyTrunc, if_pos (div_nonneg (by positivity) hs0.le)] at h'
  have hdiv : x / (s : ℚ) ≤ (w : ℚ) / (s : ℚ) := by gcongr
  have hmono : ⌊x / (s : ℚ)⌋ ≤ ⌊(w : ℚ) / (s : ℚ)⌋ := Int.floor_le_floor hdiv
  have hgc : gridCols w s = ((w / s : ℕ) : ℤ) + 1 := by
    rw [gridCols, pyTrunc_natCast_div w s hs]
  constructor
  · rw [ht]
    exact Int.le_floor.mpr (by exact_mod_cast hnn)
  · rw [ht, hgc]
    omega

/-- C10: the grid is one cell larger than the canvas needs, so for every
position in the closed box `[0, canvas_width] x [0, canvas_height]` —
including the exact boundary values produced by wrap-around — the
unclamped truncated indices already lie in `[0, cols-1] x [0, rows-1]`,
and the clamping in `follow` leaves them unchanged. -/
theorem C10_clamp_identity_on_canvas (w h s : ℕ) (x y : ℚ)
    (hs : 0 < s) (hx0 : 0 ≤ x) (hxw : x ≤ (w : ℚ)) (hy0 : 0 ≤ y)
    (hyh : y ≤ (h : ℚ)) :
    0 ≤ pyTrunc (x / (s : ℚ)) ∧
    pyTrunc (x / (s : ℚ)) ≤ gridCols w s - 1 ∧
    constrain (pyTrunc (x / (s : ℚ))) 0 (gridCols w s - 1) =
      pyTrunc (x / (s : ℚ)) ∧
    0 ≤ pyTrunc (y / (s : ℚ)) ∧
    pyTrunc (y / (s : ℚ)) ≤ gridRows h s - 1 ∧
    constrain (pyTrunc (y / (s : ℚ))) 0 (gridRows h s - 1) =
      pyTrunc (y / (s : ℚ)) := by
  obtain ⟨hx1, hx2⟩ := trunc_in_grid w s x hs hx0 hxw
  obtain ⟨hy1, hy2⟩ := trunc_in_grid h s y hs hy0 hyh
  exact ⟨hx1, hx2, constrain_eq_self _ _ hx1 hx2, hy1, hy2,
    constrain_eq_self _ _ hy1 hy2⟩

/-- C10 witness: the exact bottom-right canvas corner `(800, 600)` of the
lesson-07 canvas with cell size 20. -/
theorem C10_clamp_identity_on_canvas_witness :
    (0 < 20 ∧ (0 : ℚ) ≤ 800 ∧ (800 : ℚ) ≤ ((800 : ℕ) : ℚ) ∧
      (0 : ℚ) ≤ 600 ∧ (600 : ℚ) ≤ ((600 : ℕ) : ℚ)) ∧
    (0 ≤ pyTrunc ((800 : ℚ) / ((20 : ℕ) : ℚ)) ∧
     pyTrunc ((800 : ℚ) / ((20 : ℕ) : ℚ)) ≤ gridCols 800 20 - 1 ∧
     constrain (pyTrunc ((800 : ℚ) / ((20 : ℕ) : ℚ))) 0 (gridCols 800 20 - 1) =
       pyTrunc ((800 : ℚ) / ((20 : ℕ) : ℚ)) ∧
     0 ≤ pyTrunc ((600 : ℚ) / ((20 : ℕ) : ℚ)) ∧
     pyTrunc ((600 : ℚ) / ((20 : ℕ) : ℚ)) ≤ gridRows 600 20 - 1 ∧
     constrain (pyTrunc ((600 : ℚ) / ((20 : ℕ) : ℚ))) 0 (gridRows 600 20 - 1) =
       pyTrunc ((600 : ℚ) / ((20 : ℕ) : ℚ))) :=
  ⟨⟨by norm_num, by norm_num, by norm_num, by norm_num, by norm_num⟩,
   C10_clamp_identity_on_canvas 800 600 20 800 600 (by norm_num)
     (by norm_num) (by norm_num) (by norm_num) (by norm_num)⟩

/-- C9: after every `follow`, the velocity satisfies
`vx^2 + vy^2 = max_speed^2` exactly, for every particle, every grid shape
and every state of the field — `cos(angle)^2 + sin(angle)^2 = 1`. -/
theorem C9_follow_speed_exact (scale : ℝ) (cols rows : ℕ)
    (fieldFn : ℤ → ℤ → ℝ) (p : RParticle) :
    (p.follow scale cols rows fieldFn).vx ^ 2 +
      (p.follow scale cols rows fieldFn).vy ^ 2 = p.maxSpeed ^ 2 := by
  simp only [RParticle.follow]
  rw [mul_pow, mul_pow, ← add_mul, Real.cos_sq_add_sin_sq, one_mul]

/-- C8: the spec-modelled construction rejects nonpositive canvas
dimensions, a nonpositive cell size and a malformed profile with a
configuration error, and the source tick embedding is total: with pool
size zero the particle pass is a silent no-op. -/
theorem C8_fail_fast_and_tick_total (w h cs : ℤ) (pr : Profile) (e : Env)
    (fresh : ℕ → ArtParticle) :
    ((w ≤ 0 ∨ h ≤ 0) → ∃ msg, mkSystem w h cs pr = Except.error msg) ∧
    (cs ≤ 0 → ∃ msg, mkSystem w h cs pr = Except.error msg) ∧
    (pr.malformed = true → ∃ msg, mkSystem w h cs pr = Except.error msg) ∧
    initPool fresh 0 = [] ∧
    tickPool e fresh (initPool fresh 0) = initPool fresh 0 := by
  refine ⟨?_, ?_, ?_, rfl, rfl⟩
  · intro hwh
    exact ⟨_, by rw [mkSystem, if_pos hwh]⟩
  · intro hcs
    by_cases hwh : w ≤ 0 ∨ h ≤ 0
    · exact ⟨_, by rw [mkSystem, if_pos hwh]⟩
    · exact ⟨_, by rw [mkSystem, if_neg hwh, if_pos hcs]⟩
  · intro hmal
    by_cases hwh : w ≤ 0 ∨ h ≤ 0
    · exact ⟨_, by rw [mkSystem, if_pos hwh]⟩
    · by_cases hcs : cs ≤ 0
      · exact ⟨_, by rw [mkSystem, if_neg hwh, if_pos hcs]⟩
      · exact ⟨_, by rw [mkSystem, if_neg hwh, if_neg hcs, if_pos hmal]⟩

/-- C8 witness: a negative width and a negative cell size are rejected,
and the empty pool ticks to itself. -/
theorem C8_fail_fast_and_tick_total_witness :
    ((-1 : ℤ) ≤ 0 ∨ (600 : ℤ) ≤ 0) ∧
    (∃ msg, mkSystem (-1) 600 20 prW = Except.error msg) ∧
    (∃ msg, mkSystem 800 600 (-3) prW = Except.error msg) ∧
    initPool (fun _ => pW) 0 = [] ∧
    tickPool envW (fun _ => pW) (initPool (fun _ => pW) 0) =
      initPool (fun _ => pW) 0 := by
  have T1 := C8_fail_fast_and_tick_total (-1) 600 20 prW envW (fun _ => pW)
  have T2 := C8_fail_fast_and_tick_total 800 600 (-3) prW envW (fun _ => pW)
  exact ⟨Or.inl (by decide), T1.1 (Or.inl (by decide)), T2.2.1 (by decide),
    T1.2.2.2.1, T1.2.2.2.2⟩

end Encre
